import Mathlib

/-!
Shallow embedding of the PolRegioGTFS schedule-normalization engine
(`polregio_gtfs/scrape_api.py`, `polregio_gtfs/split_bus_legs.py`,
`polregio_gtfs/load_station_data.py`) and proofs about its behaviour.
-/

namespace PolRegio

/-! ## String helpers

Python's `needle in haystack` substring test, modelled on character lists. -/

/-- Test `strStartsWith needle hay`: holds when `hay` begins with `needle`. -/
def strStartsWith : List Char → List Char → Bool
  | [], _ => true
  | _ :: _, [] => false
  | a :: as, b :: bs => a = b && strStartsWith as bs

/-- Python's `needle in hay` substring containment over character lists. -/
def strContains (needle : List Char) : List Char → Bool
  | [] => needle.isEmpty
  | c :: rest => strStartsWith needle (c :: rest) || strContains needle rest

/-- The characters of the `"ZKA"` marker checked by
`ScrapeAPI._bus_departures` and `SplitBusLegs.process_train`. -/
def zkaMarker : List Char := ['Z', 'K', 'A']

/-! ## Mode Annotator (`ScrapeAPI._bus_departures` and helpers) -/

/-- The set `BUS_ATTRIBUTE_IDS` (2, 56, 100) from `scrape_api.py`. -/
def busAttributeIds : List Int := [2, 56, 100]

/-- One element of `train["train_attributes"]` (`api.TrainAttribute`);
only the fields the Mode Annotator reads. -/
structure TrainAttribute where
  id : Int
  begin_station_name : String
  end_station_name : String
deriving DecidableEq

/-- From `ScrapeAPI._station_name_to_idx`: the name → list-of-positions
multimap over the stop sequence, looked up at one name.  A stop is
represented by its station name (the only field this code reads). -/
def station_name_to_idx (stops : List String) (name : String) : List Nat :=
  (stops.enum.filter (fun p => p.2 = name)).map (fun p => p.1)

/-- From `ScrapeAPI.pick_attribute_idx`: `None` when the name is unknown,
the first candidate when `is_start`, the last one otherwise. -/
def pick_attribute_idx (stops : List String) (name : String) ( is_start : Bool) : Option Nat :=
  let candidates := station_name_to_idx stops name
  if candidates.isEmpty then none
  else if is_start then candidates.head? else candidates.getLast?

/-- From `ScrapeAPI._bus_departures`, translated line by line.  Note that the
source resolves BOTH boundaries with `attribute.begin_station_name` and
`is_start=True`, and marks `range(start, end + end_is_last)`. -/
def bus_departures (train_name : Option String) (attrs : List TrainAttribute)
    (stops : List String) : Finset Nat :=
  if strContains zkaMarker (train_name.getD "").toList then Finset.range stops.length
  else
    attrs.foldl
      (fun acc attr =>
        if attr.id ∈ busAttributeIds then
          match pick_attribute_idx stops attr.begin_station_name true,
                pick_attribute_idx stops attr.begin_station_name true with
          | some start, some e =>
            let endIsLast : Bool := e = stops.length - 1
            let e' := if endIsLast then e + 1 else e
            acc ∪ Finset.Ico start (e' + (if endIsLast then 1 else 0))
          | _, _ => acc
        else acc)
      ∅

/-- Modelled from the spec (§4.4), for comparison with `bus_departures`:
resolve the begin boundary by the attribute's begin-station name with a
first-occurrence tie-break, the end boundary by the *end*-station name
with a *last*-occurrence tie-break, extend one past the end when the end
position is the final stop, and mark every position of the closed
interval `[begin, end]`. -/
def bus_departures_spec (train_name : Option String) (attrs : List TrainAttribute)
    (stops : List String) : Finset Nat :=
  if strContains zkaMarker (train_name.getD "").toList then Finset.range stops.length
  else
    attrs.foldl
      (fun acc attr =>
        if attr.id ∈ busAttributeIds then
          match pick_attribute_idx stops attr.begin_station_name true,
                pick_attribute_idx stops attr.end_station_name false with
          | some start, some e =>
            let endIsLast : Bool := e = stops.length - 1
            let e' := if endIsLast then e + 1 else e
            acc ∪ Finset.Icc start e'
          | _, _ => acc
        else acc)
      ∅

/-! ## Time Normalizer (the loop of `ScrapeAPI._scrape_train_stops`) -/

/-- The loop `while t < lb: t += TimePoint(days=1)` — add 24-hour increments
(86400 seconds) to `t` until it is at least `lb`. -/
def bump (t lb : Nat) : Nat :=
  if t < lb then bump (t + 86400) lb else t
termination_by lb - t
decreasing_by omega

/-- The time-normalization loop of `ScrapeAPI._scrape_train_stops`:
carry `previous_departure`, bump each arrival up to it, each departure
up to the arrival, and pass the departure on.  Times are seconds. -/
def normalize_stop_times (previous_departure : Nat) :
    List (Nat × Nat) → List (Nat × Nat)
  | [] => []
  | (a, d) :: rest =>
    let a' := bump a previous_departure
    let d' := bump d a'
    (a', d') :: normalize_stop_times d' rest

/-- The flattened timeline `[arr₀, dep₀, arr₁, dep₁, …]` of a stop-time
list; the trip-monotonicity invariant is exactly a `≤`-chain over it. -/
def flat_times (l : List (Nat × Nat)) : List Nat :=
  l.flatMap (fun p => [p.1, p.2])

/-! ## Calendar Expander (`ScrapeAPI._reverse_date_train_map`) -/

/-- One `defaultdict[int, list[Date]]` append step: extend the existing
group for `t`, or open a new group at the end. -/
def addDate (acc : List (Int × List String)) (t : Int) (d : String) :
    List (Int × List String) :=
  if acc.any (fun p => p.1 = t) then
    acc.map (fun p => if p.1 = t then (p.1, p.2 ++ [d]) else p)
  else acc ++ [(t, [d])]

/-- From `ScrapeAPI._reverse_date_train_map`: invert a date → train-id mapping
(an association list with distinct keys, in insertion order) into
train-id → date-list groups. -/
def reverse_date_train_map (m : List (String × Int)) : List (Int × List String) :=
  m.foldl (fun acc p => addDate acc p.2 p.1) []

/-- All dates of all groups, in group order — the "union" of the
calendar expansion's output, with multiplicity. -/
def all_dates (gs : List (Int × List String)) : List String :=
  gs.flatMap (fun g => g.2)

/-! ## Leg Segmenter (`split_bus_legs.py`) -/

/-- The fields of `impuls.model.StopTime` that `split_bus_legs.py`
reads or writes. -/
structure StopTime where
  trip_id : String
  stop_id : Nat
  arrival_time : Nat
  departure_time : Nat
  platform : String
deriving DecidableEq

/-- The `Leg` named tuple from `split_bus_legs.py`. -/
structure Leg where
  stop_times : List StopTime
  is_bus : Bool
deriving DecidableEq

/-- Function `arrival_only` from `split_bus_legs.py`. -/
def arrival_only (st : StopTime) ( is_bus : Bool) : StopTime :=
  let new := { st with departure_time := st.arrival_time }
  if is_bus then { new with platform := "BUS" }
  else if new.platform = "BUS" then { new with platform := "" }
  else new

/-- Function `departure_only` from `split_bus_legs.py`. -/
def departure_only (st : StopTime) ( is_bus : Bool) : StopTime :=
  let new := { st with arrival_time := st.departure_time }
  if is_bus then { new with platform := "BUS" }
  else if new.platform = "BUS" then { new with platform := "" }
  else new

/-- The `for stop_time in stop_times` loop of `compute_legs`, carrying
`previous_is_bus`, the open `leg` and the closed `legs`; the `[]` case is
the code after the loop (`if len(leg) > 1: legs.append(...)`). -/
def compute_legs_loop (previous_is_bus : Bool) (leg : List StopTime)
    (legs : List Leg) : List StopTime → List Leg
  | [] => if leg.length > 1 then legs ++ [⟨leg, previous_is_bus⟩] else legs
  | st :: rest =>
    let current_is_bus : Bool := st.platform = "BUS"
    if previous_is_bus ≠ current_is_bus then
      let legs' :=
        if leg.isEmpty then legs
        else legs ++ [⟨leg ++ [arrival_only st previous_is_bus], previous_is_bus⟩]
      compute_legs_loop current_is_bus [departure_only st current_is_bus] legs' rest
    else
      compute_legs_loop previous_is_bus (leg ++ [st]) legs rest

/-- Function `compute_legs` from `split_bus_legs.py`.  The source unconditionally
reads `stop_times[0].platform` to seed `previous_is_bus`, so the empty
list raises `IndexError`; that failure is modelled as `none`. -/
def compute_legs (stop_times : List StopTime) : Option (List Leg) :=
  match stop_times with
  | [] => none
  | st0 :: _ =>
    some (compute_legs_loop (st0.platform = "BUS") [] [] stop_times)

/-- The decision taken by `SplitBusLegs.process_train` for one trip. -/
inductive TrainAction where
  | replaceByBus
  | replaceByLegs (legs : List Leg)
  | noChange
deriving DecidableEq

/-- The branch structure of `SplitBusLegs.process_train`: retag onto the
bus route when the name holds `"ZKA"` or the single leg is a bus leg;
split when there are at least two legs; otherwise do nothing. -/
def process_train (short_name : String) (stop_times : List StopTime) :
    Option TrainAction :=
  (compute_legs stop_times).map (fun legs =>
    if strContains zkaMarker short_name.toList
        || (match legs with | [l] => l.is_bus | _ => false) then
      TrainAction.replaceByBus
    else if legs.length > 1 then TrainAction.replaceByLegs legs
    else TrainAction.noChange)

/-- The fields of `impuls.model.Trip` that `split_bus_legs.py` uses. -/
structure TripRec where
  id : String
  route_id : String
  short_name : String
deriving DecidableEq

/-- From `impuls.model.Transfer.Type`; `replace_train_by_legs` always uses
`TIMED`. -/
inductive TransferType where
  | recommended
  | timed
  | minimumTime
  | impossible
deriving DecidableEq

/-- The fields of `impuls.model.Transfer` that `replace_train_by_legs`
sets. -/
structure TransferRec where
  from_stop_id : Nat
  to_stop_id : Nat
  from_trip_id : String
  to_trip_id : String
  type : TransferType
deriving DecidableEq

/-- The `for idx, (leg, is_bus) in enumerate(legs)` loop of
`SplitBusLegs.replace_train_by_legs`, collecting the created trips,
stop-times and transfers.  `leg[-1]` on an empty leg raises `IndexError`,
modelled as `none`. -/
def build_leg_records (train : TripRec) (bus_route_id : String) :
    Nat → List Leg → Option (List TripRec × List StopTime × List TransferRec)
  | _, [] => some ([], [], [])
  | idx, leg :: rest =>
    let tripId := train.id ++ "_" ++ toString idx
    let trip : TripRec :=
      { train with
        id := tripId,
        route_id := if leg.is_bus then bus_route_id else train.route_id }
    let sts := leg.stop_times.map (fun st => { st with trip_id := tripId })
    let transfers : Option (List TransferRec) :=
      if idx = 0 then some []
      else
        (leg.stop_times.getLast?).map (fun last =>
          [{ from_stop_id := last.stop_id,
             to_stop_id := last.stop_id,
             from_trip_id := train.id ++ "_" ++ toString (idx - 1),
             to_trip_id := tripId,
             type := TransferType.timed }])
    match transfers, build_leg_records train bus_route_id (idx + 1) rest with
    | some tr, some (ts, ss, trs) => some (trip :: ts, sts ++ ss, tr ++ trs)
    | _, _ => none

/-- From `SplitBusLegs.replace_train_by_legs`: the records it creates (the
original trip is deleted beforehand). -/
def replace_train_by_legs (train : TripRec) (bus_route_id : String)
    (legs : List Leg) : Option (List TripRec × List StopTime × List TransferRec) :=
  build_leg_records train bus_route_id 0 legs

/-! ## Station Reconciler (`load_station_data.py`) -/

/-- A registry entry (`load_station_data.Station`): primary id,
optional alias id (`secondary_id`, empty when absent), name and
coordinates.  Coordinates are modelled as rationals. -/
structure RegStation where
  id : String
  name : String
  lat : ℚ
  lon : ℚ
  secondary_id : String
deriving DecidableEq

/-- A row of the `stops` table as `LoadStationData` sees it. -/
structure StopRow where
  id : String
  name : String
  lat : ℚ
  lon : ℚ
deriving DecidableEq

/-- The state `LoadStationData._apply` reads and writes: the
`to_update` stub map (stop id → name, distinct keys, insertion order),
the `stops` rows and the `stop_id` references of the `stop_times` rows. -/
structure ReconcilerState where
  to_update : List (String × String)
  stops : List StopRow
  stop_times : List String
deriving DecidableEq

/-- Python's `key in self.to_update`. -/
def keyMem (k : String) (m : List (String × String)) : Bool :=
  m.any (fun p => p.1 = k)

/-- Python's `self.to_update.pop(key)` (also with a default): drop the
entry with that key. -/
def popKey (k : String) (m : List (String × String)) : List (String × String) :=
  m.filter (fun p => ¬(p.1 = k))

/-- Method `LoadStationData._apply`, translated branch by branch. -/
def apply_station (st : RegStation) (s : ReconcilerState) : ReconcilerState :=
  if keyMem st.id s.to_update = false ∧ keyMem st.secondary_id s.to_update = false then
    s
  else
    let step1 : List (String × String) × List StopRow × List String :=
      if keyMem st.secondary_id s.to_update = true then
        let tu := popKey st.secondary_id s.to_update
        if keyMem st.id tu = true then
          (tu,
           s.stops.filter (fun r => ¬(r.id = st.secondary_id)),
           s.stop_times.map (fun x => if x = st.secondary_id then st.id else x))
        else
          (tu,
           s.stops.map (fun r => if r.id = st.secondary_id then { r with id := st.id } else r),
           s.stop_times)
      else (s.to_update, s.stops, s.stop_times)
    { to_update := popKey st.id step1.1,
      stops := step1.2.1.map (fun r =>
        if r.id = st.id then { r with name := st.name, lat := st.lat, lon := st.lon } else r),
      stop_times := step1.2.2 }

/-- The error message of one `DataError` raised by
`LoadStationData._ensure_everything_curated`. -/
def missingDataMsg (p : String × String) : String :=
  "Missing data for " ++ p.1 ++ " " ++ p.2

/-- From `LoadStationData._ensure_everything_curated`: raise one aggregated
`MultipleDataErrors` holding one sub-error per remaining `to_update`
entry, or succeed when the map is empty. -/
def ensure_everything_curated (to_update : List (String × String)) :
    Except (List String) Unit :=
  if to_update.isEmpty then Except.ok ()
  else Except.error (to_update.map missingDataMsg)

/-- The reconciliation pass of `LoadStationData.execute`: fold `_apply`
over every registry entry, then run the completeness check. -/
def load_station_data_execute (stations : List RegStation) (s : ReconcilerState) :
    ReconcilerState × Except (List String) Unit :=
  let s' := stations.foldl (fun acc st => apply_station st acc) s
  (s', ensure_everything_curated s'.to_update)

/-! ## C1 — Mode Annotator boundary resolution -/

/-- C1: the claim says the end boundary is resolved by the attribute's
end-station name with a last-occurrence tie-break and that the resolved
range is marked; the code resolves BOTH boundaries with the begin name
and `is_start=True` and marks `range(start, end)`, so on stops
`["A","B","C"]` with a recognized attribute running from `"A"` to `"B"`
it marks nothing, while the specified resolution marks `{0, 1}`. -/
theorem c1_end_boundary_code_bug :
    bus_departures none [⟨2, "A", "B"⟩] ["A", "B", "C"] = ∅ ∧
    bus_departures_spec none [⟨2, "A", "B"⟩] ["A", "B", "C"] = {0, 1} ∧
    (∅ : Finset Nat) ≠ {0, 1} := by
  refine ⟨by decide, by decide, by decide⟩

/-! ## C2 — Transfer stop ids in `replace_train_by_legs` -/

/-- C2: the claim says the transfer between legs k and k+1 joins the
last stop of leg k (= first stop of leg k+1, station 20 here) to the
first stop of leg k+1; the code sets both `from_stop_id` and
`to_stop_id` to `leg[-1].stop_id`, the last stop of leg k+1
(station 30 here). -/
theorem c2_transfer_stop_code_bug :
    (replace_train_by_legs ⟨"T", "R", "1234"⟩ "RBUS"
        [⟨[⟨"T", 10, 0, 1, ""⟩, ⟨"T", 20, 2, 3, ""⟩], false⟩,
         ⟨[⟨"T", 20, 3, 3, "BUS"⟩, ⟨"T", 30, 4, 5, "BUS"⟩], true⟩]).map
        (fun r => r.2.2)
      = some [⟨30, 30, "T_0", "T_1", TransferType.timed⟩] ∧
    (30 : Nat) ≠ 20 := by
  refine ⟨by decide, by decide⟩

/-! ## C4 — Scenario B (rail, rail, road, road, rail) -/

/-- C4 counterexample: on a concrete trip tagged rail, rail, road,
road, rail the Leg Segmenter produces 2 legs, not the 3 the claim
states — the trailing length-1 rail run is discarded. -/
theorem c4_three_legs_counterexample :
    (compute_legs
        [⟨"T", 10, 0, 1, ""⟩, ⟨"T", 20, 2, 3, ""⟩, ⟨"T", 30, 4, 5, "BUS"⟩,
         ⟨"T", 40, 6, 7, "BUS"⟩, ⟨"T", 50, 8, 9, ""⟩]).map List.length
      = some 2 ∧
    (compute_legs
        [⟨"T", 10, 0, 1, ""⟩, ⟨"T", 20, 2, 3, ""⟩, ⟨"T", 30, 4, 5, "BUS"⟩,
         ⟨"T", 40, 6, 7, "BUS"⟩, ⟨"T", 50, 8, 9, ""⟩]).map List.length
      ≠ some 3 := by
  refine ⟨by decide, by decide⟩

/-- C4 (amended): a trip tagged rail, rail, road, road, rail yields
exactly two legs — rail with 3 stops (boundary duplicate included) and
road with 3 stops; the final rail run of length 1 is discarded — and the
post-processing then creates 1 transfer and 2 new trips with ids
`<id>_0` and `<id>_1`. -/
theorem c4_scenario_b_amended (a b c d e : StopTime) (train : TripRec)
    (bus_route_id : String)
    (ha : a.platform ≠ "BUS") (hb : b.platform ≠ "BUS") (hc : c.platform = "BUS")
    (hd : d.platform = "BUS") (he : e.platform ≠ "BUS") :
    compute_legs [a, b, c, d, e] =
      some [⟨[a, b, arrival_only c false], false⟩,
            ⟨[departure_only c true, d, arrival_only e true], true⟩] ∧
    (replace_train_by_legs train bus_route_id
          [⟨[a, b, arrival_only c false], false⟩,
           ⟨[departure_only c true, d, arrival_only e true], true⟩]).map
        (fun r => (r.1.map (fun t => t.id), r.2.2.length))
      = some ([train.id ++ "_0", train.id ++ "_1"], 1) := by
  constructor
  · simp [compute_legs, compute_legs_loop, ha, hb, hc, hd, he]
  · have h0 : ("_" : String) ++ toString (0 : Nat) = "_0" := by decide
    have h1 : ("_" : String) ++ toString (1 : Nat) = "_1" := by decide
    simp [replace_train_by_legs, build_leg_records, arrival_only,
      String.append_assoc, h0, h1]

/-- Witness for `c4_scenario_b_amended` at a concrete five-stop trip. -/
theorem c4_scenario_b_amended_witness :
    (("" : String) ≠ "BUS") ∧ (("BUS" : String) = "BUS") ∧
    (compute_legs
        [⟨"T", 10, 0, 1, ""⟩, ⟨"T", 20, 2, 3, ""⟩, ⟨"T", 30, 4, 5, "BUS"⟩,
         ⟨"T", 40, 6, 7, "BUS"⟩, ⟨"T", 50, 8, 9, ""⟩] =
      some [⟨[⟨"T", 10, 0, 1, ""⟩, ⟨"T", 20, 2, 3, ""⟩,
              arrival_only ⟨"T", 30, 4, 5, "BUS"⟩ false], false⟩,
            ⟨[departure_only ⟨"T", 30, 4, 5, "BUS"⟩ true, ⟨"T", 40, 6, 7, "BUS"⟩,
              arrival_only ⟨"T", 50, 8, 9, ""⟩ true], true⟩] ∧
    (replace_train_by_legs ⟨"T", "R", "1234"⟩ "RBUS"
          [⟨[⟨"T", 10, 0, 1, ""⟩, ⟨"T", 20, 2, 3, ""⟩,
             arrival_only ⟨"T", 30, 4, 5, "BUS"⟩ false], false⟩,
           ⟨[departure_only ⟨"T", 30, 4, 5, "BUS"⟩ true, ⟨"T", 40, 6, 7, "BUS"⟩,
             arrival_only ⟨"T", 50, 8, 9, ""⟩ true], true⟩]).map
        (fun r => (r.1.map (fun t => t.id), r.2.2.length))
      = some (["T" ++ "_0", "T" ++ "_1"], 1)) :=
  ⟨by decide, rfl,
   c4_scenario_b_amended _ _ _ _ _ ⟨"T", "R", "1234"⟩ "RBUS"
     (by decide) (by decide) rfl rfl (by decide)⟩

/-! ## C8 — the "ZKA" entire-trip marker -/

/-- C8 counterexample: the marker test is case-sensitive (`"ZKA" in
name`), so a trip named with lowercase `"zka"` is NOT marked whole-trip
road transport: the annotator marks no position of a two-stop trip and
`process_train` leaves the trip unchanged instead of retagging it. -/
theorem c8_case_insensitive_counterexample :
    bus_departures (some "zka") [] ["A", "B"] = ∅ ∧
    (∅ : Finset Nat) ≠ Finset.range 2 ∧
    process_train "1234 zka" [⟨"T", 10, 0, 1, ""⟩] = some TrainAction.noChange ∧
    TrainAction.noChange ≠ TrainAction.replaceByBus := by
  refine ⟨by decide, by decide, by decide, by decide⟩

/-- C8 (amended): for a trip whose display name contains `"ZKA"`
with exactly that capitalization (the check is case-sensitive), the
Mode Annotator marks every stop position as road-mode, and
`process_train` retags the whole trip onto the companion road-mode
route (no legs split, so no new trip ids and no transfers). -/
theorem c8_zka_marker_amended (nm : String) (attrs : List TrainAttribute)
    (stops : List String) (st : StopTime) (sts : List StopTime)
    (h : strContains zkaMarker nm.toList = true) :
    bus_departures (some nm) attrs stops = Finset.range stops.length ∧
    process_train nm (st :: sts) = some TrainAction.replaceByBus := by
  have h' : strContains zkaMarker nm.data = true := h
  constructor
  · simp [bus_departures, h']
  · simp [process_train, compute_legs, h']

/-- Witness for `c8_zka_marker_amended` on a one-stop trip named
`"4510 ZKA"`. -/
theorem c8_zka_marker_amended_witness :
    strContains zkaMarker ("4510 ZKA").toList = true ∧
    (bus_departures (some "4510 ZKA") [] ["A"] = Finset.range 1 ∧
     process_train "4510 ZKA" [⟨"T", 10, 0, 1, ""⟩] = some TrainAction.replaceByBus) :=
  ⟨by decide, c8_zka_marker_amended "4510 ZKA" [] ["A"] ⟨"T", 10, 0, 1, ""⟩ [] (by decide)⟩

/-! ## C10 — `compute_legs` domain and one-stop trips -/

/-- C10: `compute_legs` fails exactly on the empty stop-time list (the
unconditional `stop_times[0]` access), succeeds on every non-empty
input, returns no legs for a single stop-time, and `process_train`
therefore leaves a one-stop trip without the road-transport marker
unchanged. -/
theorem c10_compute_legs_domain :
    compute_legs ([] : List StopTime) = none ∧
    (∀ (st : StopTime) (rest : List StopTime),
      (compute_legs (st :: rest)).isSome = true) ∧
    (∀ st : StopTime, compute_legs [st] = some []) ∧
    (∀ (nm : String) (st : StopTime),
      strContains zkaMarker nm.toList = false →
      process_train nm [st] = some TrainAction.noChange) := by
  refine ⟨rfl, ?_, ?_, ?_⟩
  · intro st rest
    simp [compute_legs]
  · intro st
    simp [compute_legs, compute_legs_loop]
  · intro nm st h
    have h' : strContains zkaMarker nm.data = false := h
    simp [process_train, compute_legs, compute_legs_loop, h']

/-! ## C3 — Time Normalizer monotonicity -/

/-- The bump loop never stops below its lower bound. -/
theorem bump_ge (t lb : Nat) : lb ≤ bump t lb := by
  rw [bump]
  split
  · exact bump_ge (t + 86400) lb
  · omega
termination_by lb - t
decreasing_by omega

/-- The normalized timeline, with the incoming `previous_departure`
prepended, is a non-decreasing chain. -/
theorem chain_normalize (l : List (Nat × Nat)) (prev : Nat) :
    List.Chain' (· ≤ ·) (prev :: flat_times (normalize_stop_times prev l)) := by
  induction l generalizing prev with
  | nil => simp [normalize_stop_times, flat_times]
  | cons p rest ih =>
    obtain ⟨a, d⟩ := p
    have key := ih (bump d (bump a prev))
    simp only [normalize_stop_times, flat_times, List.flatMap_cons,
      List.cons_append, List.nil_append] at key ⊢
    exact List.chain'_cons.mpr ⟨bump_ge a prev,
      List.chain'_cons.mpr ⟨bump_ge d (bump a prev), key⟩⟩

/-- C3: the time-normalization loop (seed `previous_departure = 0`,
bump each arrival to the previous departure and each departure to its
arrival by 24-hour increments) always yields
`arrival[i] ≤ departure[i] ≤ arrival[i+1]` — a `≤`-chain over the
flattened timeline — and normalizes `[(85800,86100),(300,600)]` to
`[(85800,86100),(86700,87000)]`. -/
theorem c3_time_normalizer_monotone :
    (∀ l : List (Nat × Nat),
      List.Chain' (· ≤ ·) (flat_times (normalize_stop_times 0 l))) ∧
    normalize_stop_times 0 [(85800, 86100), (300, 600)]
      = [(85800, 86100), (86700, 87000)] := by
  constructor
  · intro l
    exact (chain_normalize l 0).tail
  · simp [normalize_stop_times, bump]

/-- Witness for `c10_compute_legs_domain` at a marker-less name and a
concrete stop-time. -/
theorem c10_compute_legs_domain_witness :
    strContains zkaMarker ("123").toList = false ∧
    (compute_legs ([] : List StopTime) = none ∧
     (∀ (st : StopTime) (rest : List StopTime),
       (compute_legs (st :: rest)).isSome = true) ∧
     (∀ st : StopTime, compute_legs [st] = some []) ∧
     (∀ (nm : String) (st : StopTime),
       strContains zkaMarker nm.toList = false →
       process_train nm [st] = some TrainAction.noChange)) :=
  ⟨by decide, c10_compute_legs_domain⟩

/-! ## Reconciler lemmas (`keyMem` / `popKey` / `apply_station`) -/

/-- Popping a key removes it from the stub map. -/
theorem keyMem_popKey_self (k : String) (m : List (String × String)) :
    keyMem k (popKey k m) = false := by
  induction m with
  | nil => rfl
  | cons p t ih =>
    by_cases h : p.1 = k
    · have e1 : popKey k (p :: t) = popKey k t := by
        simp [popKey, List.filter_cons, h]
      rw [e1, ih]
    · have e1 : popKey k (p :: t) = p :: popKey k t := by
        simp [popKey, List.filter_cons, h]
      have ih' : (popKey k t).any (fun q => decide (q.1 = k)) = false := ih
      rw [e1]
      simp [keyMem, List.any_cons, h, ih']

/-- An absent key stays absent after popping any key. -/
theorem keyMem_popKey_of_false (k k' : String) (m : List (String × String))
    (h : keyMem k m = false) : keyMem k (popKey k' m) = false := by
  induction m with
  | nil => rfl
  | cons p t ih =>
    simp only [keyMem, List.any_cons, Bool.or_eq_false_iff] at h
    by_cases hp : p.1 = k'
    · have e1 : popKey k' (p :: t) = popKey k' t := by
        simp [popKey, List.filter_cons, hp]
      rw [e1]
      exact ih h.2
    · have e1 : popKey k' (p :: t) = p :: popKey k' t := by
        simp [popKey, List.filter_cons, hp]
      have ih' : (popKey k' t).any (fun q => decide (q.1 = k)) = false := ih h.2
      rw [e1]
      simp [keyMem, List.any_cons, ih', h.1]

/-- Popping a different key does not change membership. -/
theorem keyMem_popKey_ne (k k' : String) (m : List (String × String))
    (h : k ≠ k') : keyMem k (popKey k' m) = keyMem k m := by
  induction m with
  | nil => rfl
  | cons p t ih =>
    by_cases hp : p.1 = k'
    · have hpk : ¬(p.1 = k) := fun hh => h (hh.symm.trans hp)
      have e1 : popKey k' (p :: t) = popKey k' t := by
        simp [popKey, List.filter_cons, hp]
      rw [e1, ih]
      simp [keyMem, List.any_cons, hpk]
    · have e1 : popKey k' (p :: t) = p :: popKey k' t := by
        simp [popKey, List.filter_cons, hp]
      have ih' : (popKey k' t).any (fun q => decide (q.1 = k))
          = t.any (fun q => decide (q.1 = k)) := ih
      rw [e1]
      simp only [keyMem, List.any_cons, ih']

/-- Applying an entry with no known id is a no-op. -/
theorem apply_station_unused (st : RegStation) (s : ReconcilerState)
    (h1 : keyMem st.id s.to_update = false)
    (h2 : keyMem st.secondary_id s.to_update = false) :
    apply_station st s = s := by
  unfold apply_station
  rw [if_pos ⟨h1, h2⟩]

/-- After `_apply`, neither the primary nor the alias id is left in the
stub map. -/
theorem apply_station_clears (st : RegStation) (s : ReconcilerState) :
    keyMem st.id (apply_station st s).to_update = false ∧
    keyMem st.secondary_id (apply_station st s).to_update = false := by
  by_cases hg : keyMem st.id s.to_update = false ∧ keyMem st.secondary_id s.to_update = false
  · rw [apply_station_unused st s hg.1 hg.2]
    exact hg
  · by_cases h2 : keyMem st.secondary_id s.to_update = true
    · by_cases h3 : keyMem st.id (popKey st.secondary_id s.to_update) = true
      · simp only [apply_station, if_neg hg, if_pos h2, if_pos h3]
        exact ⟨keyMem_popKey_self _ _,
          keyMem_popKey_of_false _ _ _ (keyMem_popKey_self _ _)⟩
      · simp only [apply_station, if_neg hg, if_pos h2, if_neg h3]
        exact ⟨keyMem_popKey_self _ _,
          keyMem_popKey_of_false _ _ _ (keyMem_popKey_self _ _)⟩
    · simp only [apply_station, if_neg hg, if_neg h2]
      have h2' : keyMem st.secondary_id s.to_update = false := by
        simpa using h2
      exact ⟨keyMem_popKey_self _ _, keyMem_popKey_of_false _ _ _ h2'⟩

/-- The merge branch of `_apply`: alias and primary both known stubs. -/
theorem apply_station_merge (st : RegStation) (s : ReconcilerState)
    (hne : st.id ≠ st.secondary_id)
    (h1 : keyMem st.secondary_id s.to_update = true)
    (h2 : keyMem st.id s.to_update = true) :
    apply_station st s =
      { to_update := popKey st.id (popKey st.secondary_id s.to_update),
        stops := (s.stops.filter (fun r => ¬(r.id = st.secondary_id))).map
          (fun r => if r.id = st.id then
            { r with name := st.name, lat := st.lat, lon := st.lon } else r),
        stop_times := s.stop_times.map
          (fun x => if x = st.secondary_id then st.id else x) } := by
  have hg : ¬(keyMem st.id s.to_update = false ∧
      keyMem st.secondary_id s.to_update = false) := by
    simp [h2]
  have h3 : keyMem st.id (popKey st.secondary_id s.to_update) = true := by
    rw [keyMem_popKey_ne st.id st.secondary_id s.to_update hne]
    exact h2
  simp only [apply_station, if_neg hg, if_pos h1, if_pos h3]

/-! ## C6 — the alias/primary merge of the Station Reconciler -/

/-- C6: when a registry entry's alias and primary ids are both known
stubs, `_apply` deletes every stop row carrying the alias id, re-points
every stop-time from the alias id to the primary id (leaving others
unchanged), and writes the entry's name and coordinates onto every stop
row carrying the primary id — in particular the primary stub survives
with the entry's data. -/
theorem c6_alias_merge (st : RegStation) (s : ReconcilerState)
    (hne : st.id ≠ st.secondary_id)
    (h1 : keyMem st.secondary_id s.to_update = true)
    (h2 : keyMem st.id s.to_update = true) :
    (∀ r ∈ (apply_station st s).stops, ¬(r.id = st.secondary_id)) ∧
    (apply_station st s).stop_times
      = s.stop_times.map (fun x => if x = st.secondary_id then st.id else x) ∧
    (∀ r ∈ (apply_station st s).stops,
      r.id = st.id → r.name = st.name ∧ r.lat = st.lat ∧ r.lon = st.lon) ∧
    (∀ r ∈ s.stops, r.id = st.id →
      ∃ r' ∈ (apply_station st s).stops,
        r'.id = st.id ∧ r'.name = st.name ∧ r'.lat = st.lat ∧ r'.lon = st.lon) := by
  rw [apply_station_merge st s hne h1 h2]
  refine ⟨?_, rfl, ?_, ?_⟩
  · intro r hr
    simp only [List.mem_map, List.mem_filter] at hr
    obtain ⟨r', ⟨hr'm, hr'ne⟩, rfl⟩ := hr
    by_cases hid : r'.id = st.id
    · simp only [if_pos hid]
      intro hh
      exact hne (hh ▸ hid ▸ rfl)
    · simp only [if_neg hid]
      simpa using hr'ne
  · intro r hr hid
    simp only [List.mem_map, List.mem_filter] at hr
    obtain ⟨r', ⟨hr'm, hr'ne⟩, rfl⟩ := hr
    by_cases h : r'.id = st.id
    · simp [if_pos h]
    · rw [if_neg h] at hid ⊢
      exact absurd hid h
  · intro r hr hid
    refine ⟨{ r with name := st.name, lat := st.lat, lon := st.lon }, ?_, hid, rfl, rfl, rfl⟩
    simp only [List.mem_map, List.mem_filter]
    refine ⟨r, ⟨hr, ?_⟩, by rw [if_pos hid]⟩
    simp only [decide_eq_true_eq]
    intro hh
    exact hne (hid ▸ hh ▸ rfl)

/-- Witness for `c6_alias_merge` at Scenario C: entry
`{primary "100", alias "200", name "Centrum", lat 50, lon 20}` with
stubs `100` and `200` present. -/
theorem c6_alias_merge_witness :
    (("100" : String) ≠ "200") ∧
    keyMem "200" [("100", "a"), ("200", "b")] = true ∧
    keyMem "100" [("100", "a"), ("200", "b")] = true ∧
    ((∀ r ∈ (apply_station ⟨"100", "Centrum", 50, 20, "200"⟩
        ⟨[("100", "a"), ("200", "b")],
         [⟨"100", "a", 0, 0⟩, ⟨"200", "b", 0, 0⟩],
         ["200", "100", "300"]⟩).stops, ¬(r.id = "200")) ∧
     (apply_station ⟨"100", "Centrum", 50, 20, "200"⟩
        ⟨[("100", "a"), ("200", "b")],
         [⟨"100", "a", 0, 0⟩, ⟨"200", "b", 0, 0⟩],
         ["200", "100", "300"]⟩).stop_times
       = (["200", "100", "300"] : List String).map
           (fun x => if x = "200" then "100" else x) ∧
     (∀ r ∈ (apply_station ⟨"100", "Centrum", 50, 20, "200"⟩
        ⟨[("100", "a"), ("200", "b")],
         [⟨"100", "a", 0, 0⟩, ⟨"200", "b", 0, 0⟩],
         ["200", "100", "300"]⟩).stops,
       r.id = "100" → r.name = "Centrum" ∧ r.lat = 50 ∧ r.lon = 20) ∧
     (∀ r ∈ ([⟨"100", "a", 0, 0⟩, ⟨"200", "b", 0, 0⟩] : List StopRow), r.id = "100" →
       ∃ r' ∈ (apply_station ⟨"100", "Centrum", 50, 20, "200"⟩
          ⟨[("100", "a"), ("200", "b")],
           [⟨"100", "a", 0, 0⟩, ⟨"200", "b", 0, 0⟩],
           ["200", "100", "300"]⟩).stops,
         r'.id = "100" ∧ r'.name = "Centrum" ∧ r'.lat = 50 ∧ r'.lon = 20)) :=
  ⟨by decide, by decide, by decide,
   c6_alias_merge ⟨"100", "Centrum", 50, 20, "200"⟩
     ⟨[("100", "a"), ("200", "b")],
      [⟨"100", "a", 0, 0⟩, ⟨"200", "b", 0, 0⟩],
      ["200", "100", "300"]⟩ (by decide) (by decide) (by decide)⟩

/-! ## C7 — aggregated completeness failure -/

/-- C7: after the reconciliation pass has folded `_apply` over every
registry entry, either the stub map is exhausted (every stub curated)
and the completeness check succeeds, or the check raises one aggregated
error holding exactly one sub-error per uncurated stub, naming each
offender, rather than failing at the first. -/
theorem c7_aggregated_completeness (stations : List RegStation) (s : ReconcilerState) :
    ((load_station_data_execute stations s).1.to_update = [] ∧
     (load_station_data_execute stations s).2 = Except.ok ()) ∨
    ((load_station_data_execute stations s).1.to_update ≠ [] ∧
     (load_station_data_execute stations s).2
       = Except.error
           ((load_station_data_execute stations s).1.to_update.map missingDataMsg) ∧
     ((load_station_data_execute stations s).1.to_update.map missingDataMsg).length
       = (load_station_data_execute stations s).1.to_update.length ∧
     ∀ p ∈ (load_station_data_execute stations s).1.to_update,
       missingDataMsg p
         ∈ (load_station_data_execute stations s).1.to_update.map missingDataMsg) := by
  have hr : (load_station_data_execute stations s).2
      = ensure_everything_curated (load_station_data_execute stations s).1.to_update := rfl
  by_cases h : (load_station_data_execute stations s).1.to_update = []
  · left
    refine ⟨h, ?_⟩
    rw [hr, h]
    rfl
  · right
    refine ⟨h, ?_, List.length_map _ _, ?_⟩
    · rw [hr]
      unfold ensure_everything_curated
      rw [if_neg (by simpa [List.isEmpty_iff] using h)]
    · intro p hp
      exact List.mem_map_of_mem _ hp

/-- Witness for `c7_aggregated_completeness`: an empty registry over a
state with one uncurated stub. -/
theorem c7_aggregated_completeness_witness :
    ((load_station_data_execute [] ⟨[("1", "x")], [], []⟩).1.to_update = [] ∧
     (load_station_data_execute [] ⟨[("1", "x")], [], []⟩).2 = Except.ok ()) ∨
    ((load_station_data_execute [] ⟨[("1", "x")], [], []⟩).1.to_update ≠ [] ∧
     (load_station_data_execute [] ⟨[("1", "x")], [], []⟩).2
       = Except.error
           ((load_station_data_execute [] ⟨[("1", "x")], [], []⟩).1.to_update.map
             missingDataMsg) ∧
     ((load_station_data_execute [] ⟨[("1", "x")], [], []⟩).1.to_update.map
         missingDataMsg).length
       = (load_station_data_execute [] ⟨[("1", "x")], [], []⟩).1.to_update.length ∧
     ∀ p ∈ (load_station_data_execute [] ⟨[("1", "x")], [], []⟩).1.to_update,
       missingDataMsg p
         ∈ (load_station_data_execute [] ⟨[("1", "x")], [], []⟩).1.to_update.map
             missingDataMsg) :=
  c7_aggregated_completeness [] ⟨[("1", "x")], [], []⟩

/-! ## C5 — Calendar Expander partition lemmas -/

/-- Updating via `addDate` never changes group keys in the update branch. -/
theorem keys_addDate (acc : List (Int × List String)) (t : Int) (d : String) :
    (addDate acc t d).map Prod.fst =
      if acc.any (fun p => p.1 = t) then acc.map Prod.fst
      else acc.map Prod.fst ++ [t] := by
  unfold addDate
  split
  · rw [List.map_map]
    have he : (Prod.fst ∘ fun p : Int × List String =>
        if p.1 = t then (p.1, p.2 ++ [d]) else p) = Prod.fst := by
      funext p
      by_cases hp : p.1 = t <;> simp [hp]
    rw [he]
  · simp

/-- Updating via `addDate` keeps every group non-empty. -/
theorem addDate_nonempty (acc : List (Int × List String)) (t : Int) (d : String)
    (h : ∀ g ∈ acc, g.2 ≠ []) : ∀ g ∈ addDate acc t d, g.2 ≠ [] := by
  unfold addDate
  split
  · intro g hg
    simp only [List.mem_map] at hg
    obtain ⟨p, hp, rfl⟩ := hg
    by_cases hpt : p.1 = t
    · simp [hpt]
    · simp only [if_neg hpt]
      exact h p hp
  · intro g hg
    rcases List.mem_append.mp hg with hg | hg
    · exact h g hg
    · simp only [List.mem_singleton] at hg
      subst hg
      simp

/-- When no group carries key `t`, the update map is the identity. -/
theorem update_map_id (acc : List (Int × List String)) (t : Int) (d : String)
    (h : acc.any (fun p => p.1 = t) = false) :
    acc.map (fun p => if p.1 = t then (p.1, p.2 ++ [d]) else p) = acc := by
  induction acc with
  | nil => rfl
  | cons p r ih =>
    simp only [List.any_cons, Bool.or_eq_false_iff] at h
    have hp : ¬(p.1 = t) := by simpa using h.1
    simp only [List.map_cons, if_neg hp, ih h.2]

/-- Appending date `d` to the (unique) group keyed `t` adds exactly one
occurrence of `d` to the flattened date union. -/
theorem count_update (acc : List (Int × List String)) (t : Int) (d : String)
    (hnd : (acc.map Prod.fst).Nodup)
    (hmem : acc.any (fun p => p.1 = t) = true) (d' : String) :
    (all_dates (acc.map (fun p => if p.1 = t then (p.1, p.2 ++ [d]) else p))).count d'
      = (all_dates acc).count d' + if d == d' then 1 else 0 := by
  induction acc with
  | nil => simp at hmem
  | cons p r ih =>
    simp only [List.map_cons, List.nodup_cons] at hnd
    by_cases hpt : p.1 = t
    · have hr : r.any (fun q => q.1 = t) = false := by
        rw [List.any_eq_false]
        intro q hq
        simp only [decide_eq_true_eq]
        intro hqt
        exact hnd.1 (hpt ▸ hqt ▸ List.mem_map_of_mem Prod.fst hq)
      simp only [List.map_cons, if_pos hpt, update_map_id r t d hr, all_dates,
        List.flatMap_cons, List.count_append, List.append_assoc]
      have hd : ([d].count d' : ℕ) = if d == d' then 1 else 0 := by
        by_cases hdd : d = d' <;> simp [hdd, List.count_singleton]
      rw [hd]
      omega
    · simp only [List.any_cons, decide_eq_true_eq, Bool.or_eq_true] at hmem
      rcases hmem with hmem | hmem
      · exact absurd hmem hpt
      · simp only [List.map_cons, if_neg hpt, all_dates, List.flatMap_cons,
          List.count_append]
        have := ih hnd.2 hmem
        simp only [all_dates] at this
        omega

/-- Updating via `addDate` adds exactly one occurrence of the new date to the
flattened date union, preserving all other counts. -/
theorem count_addDate (acc : List (Int × List String)) (t : Int) (d : String)
    (hnd : (acc.map Prod.fst).Nodup) (d' : String) :
    (all_dates (addDate acc t d)).count d'
      = (all_dates acc).count d' + if d == d' then 1 else 0 := by
  unfold addDate
  split
  · exact count_update acc t d hnd (by assumption) d'
  · simp only [all_dates, List.flatMap_append, List.count_append,
      List.flatMap_cons, List.flatMap_nil, List.append_nil]
    have hd : ([d].count d' : ℕ) = if d == d' then 1 else 0 := by
      by_cases hdd : d = d' <;> simp [hdd, List.count_singleton]
    rw [hd]

/-- Updating via `addDate` keeps group keys distinct. -/
theorem keysNodup_addDate (acc : List (Int × List String)) (t : Int) (d : String)
    (hnd : (acc.map Prod.fst).Nodup) : ((addDate acc t d).map Prod.fst).Nodup := by
  rw [keys_addDate]
  split
  · exact hnd
  · have ht : t ∉ acc.map Prod.fst := by
      intro hm
      obtain ⟨p, hp, hpt⟩ := List.mem_map.mp hm
      rename_i hany
      exact hany (List.any_eq_true.mpr ⟨p, hp, by simp [hpt]⟩)
    simp [List.nodup_append, hnd, ht]

/-- The invariants of the whole reversal fold: distinct keys, non-empty
groups, and exact preservation of date multiplicities. -/
theorem reverse_fold_props (m : List (String × Int)) :
    ∀ acc : List (Int × List String),
      (acc.map Prod.fst).Nodup → (∀ g ∈ acc, g.2 ≠ []) →
      ((m.foldl (fun a p => addDate a p.2 p.1) acc).map Prod.fst).Nodup ∧
      (∀ g ∈ m.foldl (fun a p => addDate a p.2 p.1) acc, g.2 ≠ []) ∧
      (∀ d', (all_dates (m.foldl (fun a p => addDate a p.2 p.1) acc)).count d'
        = (all_dates acc).count d' + (m.map Prod.fst).count d') := by
  induction m with
  | nil =>
    intro acc h1 h2
    refine ⟨h1, h2, fun d' => ?_⟩
    simp
  | cons p rest ih =>
    intro acc h1 h2
    have h1' := keysNodup_addDate acc p.2 p.1 h1
    have h2' := addDate_nonempty acc p.2 p.1 h2
    obtain ⟨k1, k2, k3⟩ := ih (addDate acc p.2 p.1) h1' h2'
    refine ⟨k1, k2, fun d' => ?_⟩
    simp only [List.foldl_cons]
    rw [k3 d', count_addDate acc p.2 p.1 h1 d', List.map_cons, List.count_cons]
    by_cases hd : p.1 = d'
    · simp [hd]
      omega
    · simp [hd]

/-- A date absent from the flattened union is absent from every group. -/
theorem flatMap_count_zero (gs : List (Int × List String)) (d : String)
    (h : (all_dates gs).count d = 0) : ∀ g ∈ gs, g.2.count d = 0 := by
  induction gs with
  | nil => intro g hg; simp at hg
  | cons g r ih =>
    simp only [all_dates, List.flatMap_cons, List.count_append] at h
    intro g' hg'
    rcases List.mem_cons.mp hg' with rfl | hg'
    · omega
    · exact ih (by simp only [all_dates]; omega) g' hg'

/-- A date with exactly one occurrence in the flattened union lies in
exactly one group, exactly once. -/
theorem flatMap_count_one (gs : List (Int × List String)) (d : String)
    (h : (all_dates gs).count d = 1) :
    gs.countP (fun g => decide (d ∈ g.2)) = 1 ∧
    ∀ g ∈ gs, d ∈ g.2 → g.2.count d = 1 := by
  induction gs with
  | nil => simp [all_dates] at h
  | cons g r ih =>
    simp only [all_dates, List.flatMap_cons, List.count_append] at h
    rcases Nat.lt_or_ge 0 (g.2.count d) with hg | hg
    · have hn : g.2.count d = 1 := by omega
      have hrest : (all_dates r).count d = 0 := by
        simp only [all_dates]
        omega
      have hall := flatMap_count_zero r d hrest
      have hdg : d ∈ g.2 := List.count_pos_iff.mp hg
      constructor
      · rw [List.countP_cons]
        have hz : r.countP (fun g => decide (d ∈ g.2)) = 0 := by
          rw [List.countP_eq_zero]
          intro a ha
          simp only [decide_eq_true_eq]
          intro hmem
          exact absurd (hall a ha) (by
            rw [List.count_eq_zero]
            simpa using hmem)
        simp [hdg, hz]
      · intro g' hg' hdg'
        rcases List.mem_cons.mp hg' with rfl | hg'
        · exact hn
        · exact absurd (hall g' hg') (by
            rw [List.count_eq_zero]
            simpa using hdg')
    · have hgz : g.2.count d = 0 := by omega
      have hrest : (all_dates r).count d = 1 := by
        simp only [all_dates]
        omega
      obtain ⟨ihc, ihm⟩ := ih hrest
      have hdg : d ∉ g.2 := List.count_eq_zero.mp hgz
      constructor
      · rw [List.countP_cons]
        simp [hdg, ihc]
      · intro g' hg' hdg'
        rcases List.mem_cons.mp hg' with rfl | hg'
        · exact absurd hdg' hdg
        · exact ihm g' hg' hdg'

/-- C5: for a date → train-id mapping with distinct dates, the calendar
expansion produces groups whose flattened date union carries exactly the
input dates (same multiplicities, hence no duplicate and no loss), every
group is non-empty, and each input date lies in exactly one group,
exactly once. -/
theorem c5_calendar_partition (m : List (String × Int))
    (hnd : (m.map Prod.fst).Nodup) :
    (∀ g ∈ reverse_date_train_map m, g.2 ≠ []) ∧
    (∀ d, (all_dates (reverse_date_train_map m)).count d
        = (m.map Prod.fst).count d) ∧
    (∀ d ∈ m.map Prod.fst,
      (reverse_date_train_map m).countP (fun g => decide (d ∈ g.2)) = 1 ∧
      ∀ g ∈ reverse_date_train_map m, d ∈ g.2 → g.2.count d = 1) := by
  obtain ⟨k1, k2, k3⟩ := reverse_fold_props m [] (by simp) (by simp)
  have hrw : reverse_date_train_map m = m.foldl (fun a p => addDate a p.2 p.1) [] := rfl
  refine ⟨by rw [hrw]; exact k2, ?_, ?_⟩
  · intro d
    rw [hrw, k3 d]
    simp [all_dates]
  · intro d hd
    have h1 : (all_dates (reverse_date_train_map m)).count d = 1 := by
      rw [hrw, k3 d]
      simp only [all_dates, List.flatMap_nil, List.count_nil, Nat.zero_add]
      exact List.count_eq_one_of_mem hnd hd
    exact flatMap_count_one (reverse_date_train_map m) d h1

/-- Witness for `c5_calendar_partition` at a concrete three-date,
two-train mapping. -/
theorem c5_calendar_partition_witness :
    ((["2024-01-01", "2024-01-02", "2024-01-03"] : List String).Nodup) ∧
    ((∀ g ∈ reverse_date_train_map
        [("2024-01-01", 5), ("2024-01-02", 5), ("2024-01-03", 7)], g.2 ≠ []) ∧
     (∀ d, (all_dates (reverse_date_train_map
          [("2024-01-01", 5), ("2024-01-02", 5), ("2024-01-03", 7)])).count d
        = ((["2024-01-01", "2024-01-02", "2024-01-03"]) : List String).count d) ∧
     (∀ d ∈ (["2024-01-01", "2024-01-02", "2024-01-03"] : List String),
       (reverse_date_train_map
          [("2024-01-01", 5), ("2024-01-02", 5), ("2024-01-03", 7)]).countP
            (fun g => decide (d ∈ g.2)) = 1 ∧
       ∀ g ∈ reverse_date_train_map
          [("2024-01-01", 5), ("2024-01-02", 5), ("2024-01-03", 7)],
         d ∈ g.2 → g.2.count d = 1)) :=
  ⟨by decide,
   c5_calendar_partition [("2024-01-01", 5), ("2024-01-02", 5), ("2024-01-03", 7)]
     (by decide)⟩

/-! ## C9 — idempotence of the per-entry merge -/

/-- C9: applying `_apply` twice with the same registry entry yields the
same record-store state as applying it once — the second application is
a no-op (both of the entry's ids are gone from the stub map after the
first), so no duplicate stations or transfers can arise. -/
theorem c9_apply_idempotent (st : RegStation) (s : ReconcilerState) :
    apply_station st (apply_station st s) = apply_station st s :=
  apply_station_unused st (apply_station st s)
    (apply_station_clears st s).1 (apply_station_clears st s).2

end PolRegio
